import Mathlib

/-
Verification of the go-safeweb `safehttp` request-processing core.

The definitions below are a shallow embedding of the two source files
`safehttp/response_writer.go` and `safehttp/mux.go`:

* The per-request `ResponseWriter` state is its `written` flag (a `Bool`);
  the underlying `http.ResponseWriter` is modelled as an event sink, so each
  writer operation returns the list of low-level calls it performed on the
  underlying writer, the resulting `written` flag, and an optional panic
  message.  A Go panic carries its message; mutations made to the writer
  before a panic persist, exactly as with a pointer receiver in Go.
* The `Dispatcher` interface is a record of fallible serialisation
  functions; response values, templates and data objects are opaque and
  modelled as natural numbers.
* Interceptors and handlers are opaque third-party code: their `Before`,
  `Commit` and `ServeHTTP` methods are arbitrary functions from the writer
  state they can observe (the `written` flag, plus the config they are
  handed, abstracted to its id) to the effect they have (events emitted,
  new `written` flag, optional panic).
* Go maps keyed by strings are modelled as association lists with a
  first-match lookup; a map assignment that may overwrite prepends the new
  binding (observationally equal to the Go assignment), and a map
  assignment with a provably fresh key appends it.
-/

namespace SafeWeb

/-- Low-level calls performed on the underlying `http.ResponseWriter`
(directly or through the `Dispatcher` / the `net/http` helpers). -/
inductive Event where
  | writeHeader (code : Nat)
  | setContentType (ct : String)
  | dispatcherWrite (resp : Nat)
  | dispatcherWriteJSON (data : Nat)
  | dispatcherTemplate (tmpl : Nat) (data : Nat)
  | httpError (code : Nat)
  | httpRedirect (req : Nat) (url : String) (code : Nat)
deriving DecidableEq

/-- JSONResponse from the source: `WriteJSON` wraps its data argument. -/
structure JSONResponse where
  data : Nat
deriving DecidableEq

/-- Argument type of the single `Dispatcher.ContentType` method, which the
source applies to plain responses, JSON responses and templates alike. -/
inductive RespValue where
  | resp (r : Nat)
  | json (j : JSONResponse)
  | tmpl (t : Nat)
deriving DecidableEq

/-- The `Dispatcher` interface of `response_writer.go`: every method can
fail, and the writer turns such failures into panics. -/
structure Dispatcher where
  contentType : RespValue → Except String String
  write : Nat → Except String Unit
  writeJSON : JSONResponse → Except String Unit
  executeTemplate : Nat → Nat → Except String Unit

/-- Panic message of `markWritten` on a second write. -/
def doubleWriteMsg : String := "ResponseWriter was already written to"

/-- Panic message of `Redirect` on a non-3xx status code. -/
def wrongMethodMsg : String := "wrong method called"

/-- Go runtime panic from calling a method on a nil `Interceptor`
(`m.interceps[key]` for an absent key yields the zero value). -/
def nilInterceptorMsg : String :=
  "runtime error: invalid memory address or nil pointer dereference"

/-- Result of one writer operation: the calls it made on the underlying
writer, the final `written` flag, and the panic it raised, if any. -/
structure WriteOut where
  events : List Event
  written : Bool
  panicMsg : Option String
deriving DecidableEq

/-- markWritten from the source: panics if the writer was already written
to, otherwise sets the flag. -/
def markWritten (written : Bool) : Bool × Option String :=
  if written then (written, some doubleWriteMsg) else (true, none)

namespace ResponseWriter

/-- Write from the source: asks the Dispatcher for a content type, sets the
200 status and the content type, asks the Dispatcher to serialise, and only
then calls `markWritten`.  A dispatcher failure panics. -/
def write (d : Dispatcher) (written : Bool) (resp : Nat) : WriteOut :=
  match d.contentType (RespValue.resp resp) with
  | Except.error e => ⟨[], written, some e⟩
  | Except.ok ct =>
    match d.write resp with
    | Except.error e =>
      ⟨[Event.writeHeader 200, Event.setContentType ct], written, some e⟩
    | Except.ok _ =>
      match markWritten written with
      | (w', p) =>
        ⟨[Event.writeHeader 200, Event.setContentType ct,
          Event.dispatcherWrite resp], w', p⟩

/-- WriteJSON from the source: wraps the data in a `JSONResponse` and
otherwise proceeds exactly like `Write`, with `markWritten` last. -/
def writeJSON (d : Dispatcher) (written : Bool) (data : Nat) : WriteOut :=
  match d.contentType (RespValue.json ⟨data⟩) with
  | Except.error e => ⟨[], written, some e⟩
  | Except.ok ct =>
    match d.writeJSON ⟨data⟩ with
    | Except.error e =>
      ⟨[Event.writeHeader 200, Event.setContentType ct], written, some e⟩
    | Except.ok _ =>
      match markWritten written with
      | (w', p) =>
        ⟨[Event.writeHeader 200, Event.setContentType ct,
          Event.dispatcherWriteJSON data], w', p⟩

/-- WriteTemplate from the source: content type, 200 status, template
execution through the Dispatcher, `markWritten` last. -/
def writeTemplate (d : Dispatcher) (written : Bool) (t : Nat) (data : Nat) :
    WriteOut :=
  match d.contentType (RespValue.tmpl t) with
  | Except.error e => ⟨[], written, some e⟩
  | Except.ok ct =>
    match d.executeTemplate t data with
    | Except.error e =>
      ⟨[Event.writeHeader 200, Event.setContentType ct], written, some e⟩
    | Except.ok _ =>
      match markWritten written with
      | (w', p) =>
        ⟨[Event.writeHeader 200, Event.setContentType ct,
          Event.dispatcherTemplate t data], w', p⟩

/-- NoContent from the source: `markWritten` first, then the 204 header. -/
def noContent (written : Bool) : WriteOut :=
  match markWritten written with
  | (w', some p) => ⟨[], w', some p⟩
  | (w', none) => ⟨[Event.writeHeader 204], w', none⟩

/-- WriteError from the source: `markWritten` first, then `http.Error`
with the given code.  Note that the source performs no range check on the
code. -/
def writeError (written : Bool) (code : Nat) : WriteOut :=
  match markWritten written with
  | (w', some p) => ⟨[], w', some p⟩
  | (w', none) => ⟨[Event.httpError code], w', none⟩

/-- Redirect from the source: `markWritten` first, then a panic unless the
code is in the 3xx range, then `http.Redirect`.  The incoming request is
opaque (`req`). -/
def redirect (written : Bool) (req : Nat) (url : String) (code : Nat) :
    WriteOut :=
  match markWritten written with
  | (w', some p) => ⟨[], w', some p⟩
  | (w', none) =>
    if code < 300 ∨ 400 ≤ code then ⟨[], w', some wrongMethodMsg⟩
    else ⟨[Event.httpRedirect req url code], w', none⟩

end ResponseWriter

/-- Effect of one invocation of third-party code (an interceptor method or
a handler) on the per-request writer: the events it emitted, the `written`
flag it left behind, and the panic it raised, if any. -/
structure StepOut where
  events : List Event
  written : Bool
  panicMsg : Option String
deriving DecidableEq

/-- An installed interceptor, opaque to the engine: its `Before` and
`Commit` methods are arbitrary functions of the config it is handed
(abstracted to the config's id, `none` standing for Go's zero-value config
when the key is absent from the handler's config map) and the writer state
it can observe. -/
structure Interceptor where
  before : Option Nat → Bool → StepOut
  commit : Option Nat → Bool → StepOut

/-- A Config from the source: opaque interceptor-specific data (abstracted
to an id) together with its `Match` predicate. -/
structure Config where
  id : Nat
  Match : Interceptor → Bool

/-- A registered handler, opaque to the engine. -/
structure Handler where
  serveHTTP : Bool → StepOut

/-- First-match lookup in an association list, the observational model of a
Go map read (`m[k]`), which yields `none` (Go's zero value) for an absent
key. -/
def lookupKey (k : String) : List (String × β) → Option β
  | [] => none
  | p :: rest => if p.1 = k then some p.2 else lookupKey k rest

/-- Go map assignment `m[k] = v` where `k` may already be bound: prepending
the binding is observationally equal for the first-match `lookupKey`. -/
def mapSet (mp : List (String × Config)) (k : String) (c : Config) :
    List (String × Config) :=
  (k, c) :: mp

/-- The config-matching loop at the top of `ServeMux.Handle`: for each
supplied config in caller order, every installed interceptor the config
matches gets (re)bound to it in `cfgMap`. -/
def buildCfgMap (interceps : List (String × Interceptor)) (cfgs : List Config) :
    List (String × Config) :=
  cfgs.foldl
    (fun acc cfg =>
      interceps.foldl
        (fun acc2 p => if cfg.Match p.2 then mapSet acc2 p.1 cfg else acc2)
        acc)
    []

/-- The ServeMux state relevant to the pipeline: the interceptor map and
the installation order.  (The pattern table, domains and dispatcher are
modelled where they are used.) -/
structure ServeMux where
  interceps : List (String × Interceptor)
  intercepsOrder : List String

/-- Install from the source: panics (modelled as `Except.error`) when the
key is already present, otherwise adds the interceptor to the map and
appends its key to the installation order. -/
def Install (m : ServeMux) (key : String) (it : Interceptor) :
    Except String ServeMux :=
  if (lookupKey key m.interceps).isSome then
    Except.error "interceptor with same key already installed"
  else
    Except.ok ⟨m.interceps ++ [(key, it)], m.intercepsOrder ++ [key]⟩

/-- A sequence of `Install` calls, propagating the first panic. -/
def InstallAll : ServeMux → List (String × Interceptor) → Except String ServeMux
  | m, [] => Except.ok m
  | m, (k, it) :: rest =>
    match Install m k it with
    | Except.error e => Except.error e
    | Except.ok m' => InstallAll m' rest

/-- The data `Handle` bakes into a `handlerWithInterceptors` at
registration time: the resolved config map and the installation-order
snapshot.  The interceptor map itself is shared by reference with the mux,
so request-time execution below takes the current map as a parameter. -/
structure HandlerWithInterceptors where
  configs : List (String × Config)
  intercepsOrder : List String

/-- Handle from the source, restricted to the pipeline assembly it
performs: the config map is computed once, at registration time, from the
interceptors installed so far. -/
def Handle (m : ServeMux) (cfgs : List Config) : HandlerWithInterceptors :=
  ⟨buildCfgMap m.interceps cfgs, m.intercepsOrder⟩

/-- Items of the request-time invocation trace. -/
inductive TraceItem where
  | before (key : String)
  | handlerRun
  | commit (key : String)
deriving DecidableEq

/-- Outcome of a phase of the pipeline: the invocation trace, the events
emitted on the underlying writer, the final `written` flag and the
propagating panic, if any. -/
structure PhaseOut where
  trace : List TraceItem
  events : List Event
  written : Bool
  panicMsg : Option String
deriving DecidableEq

/-- The shared shape of the two interceptor loops in `mux.go`: invoke the
method selected by `act` on each key's interceptor in turn (a nil map
entry panics at the call), abort on a panic, and return as soon as the
writer's `written` flag is set after an invocation. -/
def runPhase (act : Interceptor → Option Nat → Bool → StepOut)
    (mk : String → TraceItem) (interceps : List (String × Interceptor))
    (configs : List (String × Config)) : List String → Bool → PhaseOut
  | [], w => ⟨[], [], w, none⟩
  | key :: rest, w =>
    match lookupKey key interceps with
    | none => ⟨[], [], w, some nilInterceptorMsg⟩
    | some it =>
      let s := act it ((lookupKey key configs).map Config.id) w
      match s.panicMsg with
      | some msg => ⟨[mk key], s.events, s.written, some msg⟩
      | none =>
        if s.written then ⟨[mk key], s.events, s.written, none⟩
        else
          let r := runPhase act mk interceps configs rest s.written
          ⟨mk key :: r.trace, s.events ++ r.events, r.written, r.panicMsg⟩

/-- The Before loop of `handlerWithInterceptors.ServeHTTP`, lines 219-224
of `mux.go`: registration order, stop at the first interceptor that leaves
the writer written. -/
def beforePhase (interceps : List (String × Interceptor))
    (configs : List (String × Config)) (order : List String) (w : Bool) :
    PhaseOut :=
  runPhase Interceptor.before TraceItem.before interceps configs order w

/-- The body of `handlerWithInterceptors.ServeHTTP` (inside the deferred
recover): the Before loop on a fresh writer, then the handler, then the
implicit `NoContent` when the handler returned without writing. -/
def pipelineBody (interceps : List (String × Interceptor))
    (configs : List (String × Config)) (order : List String) (h : Handler) :
    PhaseOut :=
  let b := beforePhase interceps configs order false
  match b.panicMsg with
  | some msg => ⟨b.trace, b.events, b.written, some msg⟩
  | none =>
    if b.written then b
    else
      let s := h.serveHTTP b.written
      match s.panicMsg with
      | some msg =>
        ⟨b.trace ++ [TraceItem.handlerRun], b.events ++ s.events, s.written,
          some msg⟩
      | none =>
        if s.written then
          ⟨b.trace ++ [TraceItem.handlerRun], b.events ++ s.events, s.written,
            none⟩
        else
          let nc := ResponseWriter.noContent s.written
          ⟨b.trace ++ [TraceItem.handlerRun],
            b.events ++ s.events ++ nc.events, nc.written, nc.panicMsg⟩

/-- handlerWithInterceptors.ServeHTTP including its deferred recover: a
panic anywhere in the body is caught exactly once and answered with
`rw.WriteError(StatusInternalServerError)` on the current writer state
(which itself panics, propagating outward, when the writer was already
written to). -/
def hwiServeHTTP (interceps : List (String × Interceptor))
    (hi : HandlerWithInterceptors) (h : Handler) : PhaseOut :=
  let b := pipelineBody interceps hi.configs hi.intercepsOrder h
  match b.panicMsg with
  | none => b
  | some _ =>
    let e := ResponseWriter.writeError b.written 500
    ⟨b.trace, b.events ++ e.events, e.written, e.panicMsg⟩

/-- The CommitPhase record of the source (its opaque request field is
omitted: the abstract `commit` behaviours absorb it). -/
structure CommitPhase where
  Configs : List (String × Config)
  Interceps : List (String × Interceptor)
  IntercepsOrder : List String

/-- CommitPhase.commit from the source: the loop `for i := n-1; i >= 0;
i--` is the forward loop over the reversed order, stopping as soon as the
writer is written after an invocation. -/
def CommitPhase.commit (c : CommitPhase) (w : Bool) : PhaseOut :=
  runPhase Interceptor.commit TraceItem.commit c.Interceps c.Configs
    c.IntercepsOrder.reverse w

/-- methodHandler outcome: either an error response written directly via
`http.Error`, or delegation to the matched handler pipeline. -/
inductive MHOutcome (α : Type) where
  | errorResponse (code : Nat) (body : String)
  | serve (h : α)
deriving DecidableEq

/-- The methodHandler record of `mux.go` (the per-method handlers are
opaque here). -/
structure MethodHandler (α : Type) where
  handlers : List (String × α)
  domains : List String

/-- methodHandler.ServeHTTP from the source: the host allow-list check
comes first and answers 404, then the method lookup answers 405, and only
then is the pipeline invoked. -/
def methodHandlerServeHTTP (m : MethodHandler α) (host method : String) :
    MHOutcome α :=
  if ¬ m.domains.contains host then
    MHOutcome.errorResponse 404 "Not Found"
  else
    match lookupKey method m.handlers with
    | none => MHOutcome.errorResponse 405 "Method Not Allowed"
    | some h => MHOutcome.serve h

/-- Whether invoking the phase method `act` of the interceptor keyed `key`
on writer state `w` halts the loop: a nil map entry (panic at the call), a
panic inside the method, or a `written` flag left set. -/
def stopsAt (act : Interceptor → Option Nat → Bool → StepOut)
    (interceps : List (String × Interceptor))
    (configs : List (String × Config)) (key : String) (w : Bool) : Bool :=
  match lookupKey key interceps with
  | none => true
  | some it =>
    let s := act it ((lookupKey key configs).map Config.id) w
    s.panicMsg.isSome || s.written

/-- `stopsAt` for the Before phase, which always runs interceptors on a
not-yet-written writer. -/
def beforeStops (interceps : List (String × Interceptor))
    (configs : List (String × Config)) (key : String) : Bool :=
  stopsAt Interceptor.before interceps configs key false

/-- `stopsAt` for the Commit phase. -/
def commitStops (interceps : List (String × Interceptor))
    (configs : List (String × Config)) (key : String) (w : Bool) : Bool :=
  stopsAt Interceptor.commit interceps configs key w

/-- The prefix of a key list up to and including its first halting key,
where the first key is tested with `pFirst` (the initial writer state) and
the later ones with `pRest` (the loop only continues on an unwritten
writer). -/
def cutAt (pFirst pRest : String → Bool) : List String → List String
  | [] => []
  | k :: rest => if pFirst k then [k] else k :: cutAt pRest pRest rest

/-- The binding `buildCfgMap` actually produces for an interceptor: the
last config in caller order whose `Match` accepts it. -/
def lastMatchingConfig (it : Interceptor) (cfgs : List Config) : Option Config :=
  cfgs.foldl (fun acc c => if c.Match it then some c else acc) none

/-- Stated from the specification's words, for comparison with the source:
the first config in caller order whose `Match` accepts the interceptor. -/
def specFirstMatchingConfig (it : Interceptor) (cfgs : List Config) :
    Option Config :=
  cfgs.find? (fun c => c.Match it)

/-- Well-formedness of a mux: every key in the installation order is bound
in the interceptor map (maintained by `Install`, which is the only way the
source extends either). -/
def WFMux (m : ServeMux) : Prop :=
  ∀ k ∈ m.intercepsOrder, (lookupKey k m.interceps).isSome

/-- Lookup in a concatenation: the left list wins when it binds the key. -/
theorem lookupKey_append (k : String) (l₁ l₂ : List (String × β)) :
    lookupKey k (l₁ ++ l₂) =
      match lookupKey k l₁ with
      | some v => some v
      | none => lookupKey k l₂ := by
  induction l₁ with
  | nil => rfl
  | cons p rest ih => by_cases h : p.1 = k <;> simp [lookupKey, h, ih]

/-- Lookup is unchanged by appending when the key is already bound. -/
theorem lookupKey_append_of_isSome (k : String) (l₁ l₂ : List (String × β))
    (h : (lookupKey k l₁).isSome) : lookupKey k (l₁ ++ l₂) = lookupKey k l₁ := by
  rw [lookupKey_append]
  obtain ⟨v, hv⟩ := Option.isSome_iff_exists.mp h
  simp [hv]

/-- A key absent from a concatenation is absent from the left part. -/
theorem lookupKey_append_none_left (k : String) (l₁ l₂ : List (String × β))
    (h : lookupKey k (l₁ ++ l₂) = none) : lookupKey k l₁ = none := by
  rw [lookupKey_append] at h
  cases hv : lookupKey k l₁ with
  | none => rfl
  | some v => rw [hv] at h; exact absurd h (by simp)

/-- Characterisation of the interceptor loops: the invocation trace is the
key list cut at the first halting interceptor (the first invocation sees
the initial writer state, all later ones see an unwritten writer). -/
theorem runPhase_trace (act : Interceptor → Option Nat → Bool → StepOut)
    (mk : String → TraceItem) (ics : List (String × Interceptor))
    (cfgs : List (String × Config)) (keys : List String) (w : Bool)
    (wf : ∀ k ∈ keys, (lookupKey k ics).isSome) :
    (runPhase act mk ics cfgs keys w).trace =
      (cutAt (fun k => stopsAt act ics cfgs k w)
        (fun k => stopsAt act ics cfgs k false) keys).map mk := by
  induction keys generalizing w with
  | nil => rfl
  | cons key rest ih =>
    obtain ⟨it, hit⟩ :=
      Option.isSome_iff_exists.mp (wf key (List.mem_cons_self key rest))
    have wf' : ∀ k ∈ rest, (lookupKey k ics).isSome :=
      fun k hk => wf k (List.mem_cons_of_mem key hk)
    cases hp : (act it ((lookupKey key cfgs).map Config.id) w).panicMsg with
    | some msg => simp [runPhase, cutAt, stopsAt, hit, hp]
    | none =>
      cases hwr : (act it ((lookupKey key cfgs).map Config.id) w).written with
      | true => simp [runPhase, cutAt, stopsAt, hit, hp, hwr]
      | false =>
        simp [runPhase, hit, hp, hwr, cutAt, stopsAt, ih false wf']

/-- An interceptor loop started on an unwritten writer finishes cleanly
(no panic, still unwritten, so the next pipeline stage runs) exactly when
no interceptor in the list halts it. -/
theorem runPhase_clean (act : Interceptor → Option Nat → Bool → StepOut)
    (mk : String → TraceItem) (ics : List (String × Interceptor))
    (cfgs : List (String × Config)) (keys : List String) :
    ((runPhase act mk ics cfgs keys false).panicMsg = none ∧
        (runPhase act mk ics cfgs keys false).written = false) ↔
      ∀ k ∈ keys, stopsAt act ics cfgs k false = false := by
  induction keys with
  | nil => simp [runPhase]
  | cons key rest ih =>
    cases hit : lookupKey key ics with
    | none => simp [runPhase, stopsAt, hit]
    | some it =>
      cases hp : (act it ((lookupKey key cfgs).map Config.id) false).panicMsg with
      | some msg => simp [runPhase, stopsAt, hit, hp]
      | none =>
        cases hwr : (act it ((lookupKey key cfgs).map Config.id) false).written with
        | true => simp [runPhase, stopsAt, hit, hp, hwr]
        | false =>
          simp [runPhase, hit, hp, hwr, stopsAt, List.forall_mem_cons, ih]

/-- Every item of an interceptor loop's trace is one of its keys. -/
theorem runPhase_trace_keys (act : Interceptor → Option Nat → Bool → StepOut)
    (mk : String → TraceItem) (ics : List (String × Interceptor))
    (cfgs : List (String × Config)) (keys : List String) (w : Bool) :
    ∀ item ∈ (runPhase act mk ics cfgs keys w).trace, ∃ k ∈ keys, item = mk k := by
  induction keys generalizing w with
  | nil => simp [runPhase]
  | cons key rest ih =>
    cases hit : lookupKey key ics with
    | none => simp [runPhase, hit]
    | some it =>
      cases hp : (act it ((lookupKey key cfgs).map Config.id) w).panicMsg with
      | some msg =>
        simp only [runPhase, hit, hp]
        intro item hmem
        exact ⟨key, List.mem_cons_self key rest, by simpa using hmem⟩
      | none =>
        cases hwr : (act it ((lookupKey key cfgs).map Config.id) w).written with
        | true =>
          simp only [runPhase, hit, hp, hwr]
          intro item hmem
          exact ⟨key, List.mem_cons_self key rest, by simpa using hmem⟩
        | false =>
          simp only [runPhase, hit, hp, hwr]
          intro item hmem
          rcases List.mem_cons.mp (by simpa using hmem) with h | h
          · exact ⟨key, List.mem_cons_self key rest, h⟩
          · obtain ⟨k, hk, hkeq⟩ :=
              ih ((act it ((lookupKey key cfgs).map Config.id) w).written) item
                (by simpa [hwr] using h)
            exact ⟨k, List.mem_cons_of_mem key hk, hkeq⟩

/-- An interceptor loop only reads the map at the keys it iterates, so two
maps agreeing there run it identically. -/
theorem runPhase_congr (act : Interceptor → Option Nat → Bool → StepOut)
    (mk : String → TraceItem) (ics ics' : List (String × Interceptor))
    (cfgs : List (String × Config)) (keys : List String) (w : Bool)
    (h : ∀ k ∈ keys, lookupKey k ics' = lookupKey k ics) :
    runPhase act mk ics' cfgs keys w = runPhase act mk ics cfgs keys w := by
  induction keys generalizing w with
  | nil => rfl
  | cons key rest ih =>
    have hk : lookupKey key ics' = lookupKey key ics :=
      h key (List.mem_cons_self key rest)
    have h' : ∀ k ∈ rest, lookupKey k ics' = lookupKey k ics :=
      fun k hkm => h k (List.mem_cons_of_mem key hkm)
    cases hit : lookupKey key ics with
    | none => simp [runPhase, hk, hit]
    | some it =>
      simp only [runPhase, hk, hit]
      cases hp : (act it ((lookupKey key cfgs).map Config.id) w).panicMsg with
      | some msg => simp [hp]
      | none =>
        cases hwr : (act it ((lookupKey key cfgs).map Config.id) w).written with
        | true => simp [hp, hwr]
        | false => simp [hp, hwr, ih false h']

/-- The cut of a key list is a prefix of it. -/
theorem cutAt_prefix (pFirst pRest : String → Bool) (l : List String) :
    ∃ t, cutAt pFirst pRest l ++ t = l := by
  induction l generalizing pFirst with
  | nil => exact ⟨[], rfl⟩
  | cons k rest ih =>
    by_cases h : pFirst k
    · exact ⟨rest, by simp [cutAt, h]⟩
    · obtain ⟨t, ht⟩ := ih pRest
      exact ⟨t, by simp [cutAt, h, ht]⟩

/-- A successful `InstallAll` appends exactly the new interceptors to the
map and their keys to the installation order, and every new key was absent
from the original map. -/
theorem installAll_ok (m : ServeMux) (news : List (String × Interceptor))
    (m' : ServeMux) (h : InstallAll m news = Except.ok m') :
    m'.interceps = m.interceps ++ news ∧
      m'.intercepsOrder = m.intercepsOrder ++ news.map Prod.fst ∧
      ∀ p ∈ news, lookupKey p.1 m.interceps = none := by
  induction news generalizing m with
  | nil =>
    simp only [InstallAll] at h
    cases h
    simp
  | cons p rest ih =>
    simp only [InstallAll, Install] at h
    by_cases hfree : (lookupKey p.1 m.interceps).isSome
    · simp [hfree] at h
    · simp only [hfree, if_neg, Bool.false_eq_true, not_false_iff] at h
      have hnone : lookupKey p.1 m.interceps = none :=
        Option.not_isSome_iff_eq_none.mp hfree
      obtain ⟨h1, h2, h3⟩ :=
        ih ⟨m.interceps ++ [p], m.intercepsOrder ++ [p.1]⟩ (by simpa using h)
      refine ⟨by simpa [List.append_assoc] using h1,
        by simpa [List.append_assoc] using h2, ?_⟩
      intro q hq
      rcases List.mem_cons.mp hq with rfl | hq'
      · exact hnone
      · exact lookupKey_append_none_left q.1 m.interceps [p] (h3 q hq')

/-- A key bound by no pair of the list looks up to `none`. -/
theorem lookupKey_eq_none_of_not_mem (k : String) (l : List (String × β))
    (h : ∀ p ∈ l, p.1 ≠ k) : lookupKey k l = none := by
  induction l with
  | nil => rfl
  | cons p rest ih =>
    simp only [lookupKey, if_neg (h p (List.mem_cons_self p rest))]
    exact ih fun q hq => h q (List.mem_cons_of_mem p hq)

/-- The pipeline body only reads the interceptor map at the keys of its
order snapshot. -/
theorem pipelineBody_congr (ics ics' : List (String × Interceptor))
    (cfgs : List (String × Config)) (order : List String) (h : Handler)
    (hagree : ∀ k ∈ order, lookupKey k ics' = lookupKey k ics) :
    pipelineBody ics' cfgs order h = pipelineBody ics cfgs order h := by
  unfold pipelineBody beforePhase
  rw [runPhase_congr Interceptor.before TraceItem.before ics ics' cfgs order
    false hagree]

/-- The deferred recover leaves the invocation trace unchanged. -/
theorem hwiServeHTTP_trace (ics : List (String × Interceptor))
    (hi : HandlerWithInterceptors) (h : Handler) :
    (hwiServeHTTP ics hi h).trace =
      (pipelineBody ics hi.configs hi.intercepsOrder h).trace := by
  unfold hwiServeHTTP
  cases hp : (pipelineBody ics hi.configs hi.intercepsOrder h).panicMsg <;>
    simp [hp]

/-- Every item of the pipeline body's trace is the handler invocation or a
Before invocation of one of the snapshot's keys. -/
theorem pipelineBody_trace_items (ics : List (String × Interceptor))
    (cfgs : List (String × Config)) (order : List String) (h : Handler) :
    ∀ item ∈ (pipelineBody ics cfgs order h).trace,
      item = TraceItem.handlerRun ∨ ∃ k ∈ order, item = TraceItem.before k := by
  have hbase := runPhase_trace_keys Interceptor.before TraceItem.before ics cfgs
    order false
  intro item hmem
  unfold pipelineBody beforePhase at hmem
  revert hmem
  cases hp : (runPhase Interceptor.before TraceItem.before ics cfgs order
      false).panicMsg with
  | some msg =>
    intro hmem
    exact Or.inr ((hbase item) (by simpa [hp] using hmem))
  | none =>
    cases hw : (runPhase Interceptor.before TraceItem.before ics cfgs order
        false).written with
    | true =>
      intro hmem
      exact Or.inr ((hbase item) (by simpa [hp, hw] using hmem))
    | false =>
      cases hsp : (h.serveHTTP false).panicMsg with
      | some m =>
        intro hmem
        have hmem' : item ∈ (runPhase Interceptor.before TraceItem.before ics
              cfgs order false).trace ∨ item = TraceItem.handlerRun := by
          simpa [hp, hw, hsp] using hmem
        rcases hmem' with hm | hm
        · exact Or.inr (hbase item hm)
        · exact Or.inl hm
      | none =>
        cases hsw : (h.serveHTTP false).written with
        | true =>
          intro hmem
          have hmem' : item ∈ (runPhase Interceptor.before TraceItem.before ics
                cfgs order false).trace ∨ item = TraceItem.handlerRun := by
            simpa [hp, hw, hsp, hsw] using hmem
          rcases hmem' with hm | hm
          · exact Or.inr (hbase item hm)
          · exact Or.inl hm
        | false =>
          intro hmem
          have hmem' : item ∈ (runPhase Interceptor.before TraceItem.before ics
                cfgs order false).trace ∨ item = TraceItem.handlerRun := by
            simpa [hp, hw, hsp, hsw, ResponseWriter.noContent,
              markWritten] using hmem
          rcases hmem' with hm | hm
          · exact Or.inr (hbase item hm)
          · exact Or.inl hm

/-- A pipeline body that finishes without a panic always leaves the writer
written: either an interceptor or the handler wrote, or the engine wrote
the implicit 204. -/
theorem pipelineBody_none_written (ics : List (String × Interceptor))
    (cfgs : List (String × Config)) (order : List String) (h : Handler) :
    (pipelineBody ics cfgs order h).panicMsg = none →
      (pipelineBody ics cfgs order h).written = true := by
  unfold pipelineBody
  cases hp : (beforePhase ics cfgs order false).panicMsg with
  | some msg => simp [hp]
  | none =>
    cases hw : (beforePhase ics cfgs order false).written with
    | true => simp [hp, hw]
    | false =>
      cases hsp : (h.serveHTTP false).panicMsg with
      | some m => simp [hp, hw, hsp]
      | none =>
        cases hsw : (h.serveHTTP false).written with
        | true => simp [hp, hw, hsp, hsw]
        | false =>
          simp [hp, hw, hsp, hsw, ResponseWriter.noContent, markWritten]

/-- A request the engine answers without a propagating panic always ends
with a written writer. -/
theorem hwiServeHTTP_none_written (ics : List (String × Interceptor))
    (hi : HandlerWithInterceptors) (h : Handler) :
    (hwiServeHTTP ics hi h).panicMsg = none →
      (hwiServeHTTP ics hi h).written = true := by
  unfold hwiServeHTTP
  cases hp : (pipelineBody ics hi.configs hi.intercepsOrder h).panicMsg with
  | none =>
    intro _
    simpa [hp] using pipelineBody_none_written ics hi.configs hi.intercepsOrder h hp
  | some msg =>
    cases hw : (pipelineBody ics hi.configs hi.intercepsOrder h).written with
    | true => simp [hp, hw, ResponseWriter.writeError, markWritten]
    | false => simp [hp, hw, ResponseWriter.writeError, markWritten]

/-- Lookup after the inner loop of `buildCfgMap` over one config: with
unique map keys, an interceptor bound to `k` is rebound to `cfg` exactly
when `cfg` matches it, and other keys are untouched. -/
theorem buildCfgMap_inner_lookup (ics : List (String × Interceptor))
    (cfg : Config) (acc : List (String × Config)) (k : String)
    (hnd : (ics.map Prod.fst).Nodup) :
    lookupKey k
        (ics.foldl
          (fun acc2 p => if cfg.Match p.2 then mapSet acc2 p.1 cfg else acc2)
          acc) =
      match lookupKey k ics with
      | some it => if cfg.Match it then some cfg else lookupKey k acc
      | none => lookupKey k acc := by
  induction ics generalizing acc with
  | nil => simp [lookupKey]
  | cons p rest ih =>
    have hnd' : (rest.map Prod.fst).Nodup := (List.nodup_cons.mp hnd).2
    have hpfresh : p.1 ∉ rest.map Prod.fst := (List.nodup_cons.mp hnd).1
    by_cases hpk : p.1 = k
    · have hrest : lookupKey k rest = none := by
        refine lookupKey_eq_none_of_not_mem k rest fun q hq hqk => ?_
        have hq1 : q.1 ∈ rest.map Prod.fst := List.mem_map_of_mem Prod.fst hq
        rw [hqk, ← hpk] at hq1
        exact hpfresh hq1
      by_cases hm : cfg.Match p.2
      · rw [List.foldl_cons, if_pos hm, ih (mapSet acc p.1 cfg) hnd', hrest]
        simp [mapSet, lookupKey, hpk, hm]
      · rw [List.foldl_cons, if_neg hm, ih acc hnd', hrest]
        simp [lookupKey, hpk, hm]
    · by_cases hm : cfg.Match p.2
      · rw [List.foldl_cons, if_pos hm, ih (mapSet acc p.1 cfg) hnd']
        cases hrk : lookupKey k rest <;> simp [hrk, mapSet, lookupKey, hpk]
      · rw [List.foldl_cons, if_neg hm, ih acc hnd']
        cases hrk : lookupKey k rest <;> simp [hrk, lookupKey, hpk]

/-- Lookup after the full `buildCfgMap` fold, starting from any
accumulator: the config bound to an installed interceptor is the result of
folding "a matching config replaces the current binding" over the caller's
config order. -/
theorem buildCfgMap_outer_lookup (ics : List (String × Interceptor))
    (cfgs : List Config) (acc : List (String × Config)) (k : String)
    (hnd : (ics.map Prod.fst).Nodup) :
    lookupKey k
        (cfgs.foldl
          (fun acc cfg =>
            ics.foldl
              (fun acc2 p =>
                if cfg.Match p.2 then mapSet acc2 p.1 cfg else acc2)
              acc)
          acc) =
      match lookupKey k ics with
      | some it =>
        cfgs.foldl (fun r c => if c.Match it then some c else r) (lookupKey k acc)
      | none => lookupKey k acc := by
  induction cfgs generalizing acc with
  | nil => cases hit : lookupKey k ics <;> simp [hit]
  | cons c rest ih =>
    rw [List.foldl_cons, ih]
    have hinner := buildCfgMap_inner_lookup ics c acc k hnd
    cases hit : lookupKey k ics with
    | none =>
      rw [hit] at hinner
      simp [hit, hinner]
    | some it =>
      rw [hit] at hinner
      simp [hit, hinner, List.foldl_cons]

/-- C1 (counterexample): with the writer already written and a dispatcher
that succeeds, a second `Write` does raise the double-write contract
violation, but only after emitting the full response (status, content type
and dispatched body) to the underlying writer, so the violation is not
raised "rather than emitting a second response". -/
theorem secondWriteEmitsCex :
    (ResponseWriter.write
      ⟨fun _ => Except.ok "text/html; charset=utf-8", fun _ => Except.ok (),
        fun _ => Except.ok (), fun _ _ => Except.ok ()⟩ true 7).panicMsg =
      some doubleWriteMsg ∧
    (ResponseWriter.write
      ⟨fun _ => Except.ok "text/html; charset=utf-8", fun _ => Except.ok (),
        fun _ => Except.ok (), fun _ _ => Except.ok ()⟩ true 7).events ≠ [] := by
  decide

/-- C1 (amended): every terminal write operation called on an
already-written writer raises a panic; `NoContent`, `WriteError` and
`Redirect` raise the double-write violation before emitting anything, while
`Write`, `WriteJSON` and `WriteTemplate` first perform exactly the same
emissions as a first write (calling `markWritten` only last) and raise
afterwards. -/
theorem secondWriteAlwaysRaises (d : Dispatcher)
    (resp jdata tmplId tdata reqId : Nat) (url : String) (code : Nat) :
    (ResponseWriter.write d true resp).panicMsg.isSome = true ∧
    (ResponseWriter.writeJSON d true jdata).panicMsg.isSome = true ∧
    (ResponseWriter.writeTemplate d true tmplId tdata).panicMsg.isSome = true ∧
    ResponseWriter.noContent true = ⟨[], true, some doubleWriteMsg⟩ ∧
    ResponseWriter.writeError true code = ⟨[], true, some doubleWriteMsg⟩ ∧
    ResponseWriter.redirect true reqId url code =
      ⟨[], true, some doubleWriteMsg⟩ ∧
    (ResponseWriter.write d true resp).events =
      (ResponseWriter.write d false resp).events ∧
    (ResponseWriter.writeJSON d true jdata).events =
      (ResponseWriter.writeJSON d false jdata).events ∧
    (ResponseWriter.writeTemplate d true tmplId tdata).events =
      (ResponseWriter.writeTemplate d false tmplId tdata).events := by
  refine ⟨?_, ?_, ?_, by simp [ResponseWriter.noContent, markWritten],
    by simp [ResponseWriter.writeError, markWritten],
    by simp [ResponseWriter.redirect, markWritten], ?_, ?_, ?_⟩ <;>
    simp only [ResponseWriter.write, ResponseWriter.writeJSON,
      ResponseWriter.writeTemplate, markWritten] <;>
    split <;> (try split) <;> simp

/-- C8 (counterexample): `WriteError` called with the status code 200,
which is outside the 4xx-5xx error range, does not raise: it marks the
writer written and emits the error response for code 200. -/
theorem writeErrorNoRangeCheckCex :
    (ResponseWriter.writeError false 200).panicMsg = none ∧
    (ResponseWriter.writeError false 200).events = [Event.httpError 200] := by
  decide

/-- C8 (amended): `Redirect` raises a panic whenever its status code is
outside the 3xx range (on a fresh writer the range violation, on a written
writer the double-write violation), but `WriteError` performs no status
class validation at all: on a fresh writer it emits the error response for
any code whatsoever without raising. -/
theorem statusClassValidation (w : Bool) (reqId : Nat) (url : String)
    (code code' : Nat) (hc : code < 300 ∨ 400 ≤ code) :
    (ResponseWriter.redirect w reqId url code).panicMsg.isSome = true ∧
    (ResponseWriter.writeError false code').panicMsg = none ∧
    (ResponseWriter.writeError false code').events = [Event.httpError code'] := by
  refine ⟨?_, by simp [ResponseWriter.writeError, markWritten],
    by simp [ResponseWriter.writeError, markWritten]⟩
  cases w
  · simp [ResponseWriter.redirect, markWritten, hc]
  · simp [ResponseWriter.redirect, markWritten]

/-- C8 (witness): the amended statement at the concrete out-of-class codes
200 (for `Redirect`) and 200 (for `WriteError`). -/
theorem statusClassValidationWitness :
    (ResponseWriter.redirect false 0 "/x" 200).panicMsg.isSome = true ∧
    (ResponseWriter.writeError false 200).panicMsg = none ∧
    (ResponseWriter.writeError false 200).events = [Event.httpError 200] :=
  statusClassValidation false 0 "/x" 200 200 (by decide)

/-- C10: `Redirect` on a fresh writer with a status code outside the 3xx
range marks the writer written before raising the contract violation: the
failed call leaves the writer permanently written, emits nothing, and
panics with the range violation. -/
theorem redirectMarksWrittenBeforeRaising (reqId : Nat) (url : String)
    (code : Nat) (hc : code < 300 ∨ 400 ≤ code) :
    ResponseWriter.redirect false reqId url code =
      ⟨[], true, some wrongMethodMsg⟩ := by
  simp [ResponseWriter.redirect, markWritten, hc]

/-- C10 (witness): the statement at the concrete non-3xx code 200. -/
theorem redirectMarksWrittenBeforeRaisingWitness :
    ResponseWriter.redirect false 0 "/foo" 200 =
      ⟨[], true, some wrongMethodMsg⟩ :=
  redirectMarksWrittenBeforeRaising 0 "/foo" 200 (by decide)

/-- C2 (counterexample): a handler that writes (a 204) and then panics with
"boom".  The fault is caught at the boundary with the write-state already
"written", but the panic that then propagates to the surrounding runtime is
the writer's double-write contract violation raised by the recovery's
`WriteError(500)` call, not the original fault value. -/
theorem faultValueNotPropagatedCex :
    (pipelineBody [] [] []
        ⟨fun _ => ⟨[Event.writeHeader 204], true, some "boom"⟩⟩).panicMsg =
      some "boom" ∧
    (pipelineBody [] [] []
        ⟨fun _ => ⟨[Event.writeHeader 204], true, some "boom"⟩⟩).written =
      true ∧
    (hwiServeHTTP [] ⟨[], []⟩
        ⟨fun _ => ⟨[Event.writeHeader 204], true, some "boom"⟩⟩).panicMsg ≠
      some "boom" ∧
    (hwiServeHTTP [] ⟨[], []⟩
        ⟨fun _ => ⟨[Event.writeHeader 204], true, some "boom"⟩⟩).panicMsg =
      some doubleWriteMsg := by
  refine ⟨rfl, rfl, ?_, rfl⟩
  decide

/-- C2 (amended): a panic raised anywhere in the Before phase, the handler
or the engine's implicit write is caught exactly once at the pipeline
boundary; if the write-state is still "not written" there, the engine
answers with the generic 500 error response and no panic escapes; if the
write-state is already "written", an abrupt failure still propagates to
the surrounding runtime and no further response is emitted — but it is the
writer's double-write contract violation (raised by the recovery's own
`WriteError(500)`), not the original fault value. -/
theorem faultRecoveryAtBoundary (ics : List (String × Interceptor))
    (cfgs : List (String × Config)) (order : List String) (h : Handler) :
    ((pipelineBody ics cfgs order h).panicMsg.isSome = true →
        (pipelineBody ics cfgs order h).written = false →
        hwiServeHTTP ics ⟨cfgs, order⟩ h =
          ⟨(pipelineBody ics cfgs order h).trace,
            (pipelineBody ics cfgs order h).events ++ [Event.httpError 500],
            true, none⟩) ∧
      ((pipelineBody ics cfgs order h).panicMsg.isSome = true →
        (pipelineBody ics cfgs order h).written = true →
        hwiServeHTTP ics ⟨cfgs, order⟩ h =
          ⟨(pipelineBody ics cfgs order h).trace,
            (pipelineBody ics cfgs order h).events, true,
            some doubleWriteMsg⟩) ∧
      ((pipelineBody ics cfgs order h).panicMsg = none →
        hwiServeHTTP ics ⟨cfgs, order⟩ h = pipelineBody ics cfgs order h) := by
  refine ⟨?_, ?_, ?_⟩
  · intro hp hw
    obtain ⟨msg, hmsg⟩ := Option.isSome_iff_exists.mp hp
    simp [hwiServeHTTP, hmsg, hw, ResponseWriter.writeError, markWritten]
  · intro hp hw
    obtain ⟨msg, hmsg⟩ := Option.isSome_iff_exists.mp hp
    simp [hwiServeHTTP, hmsg, hw, ResponseWriter.writeError, markWritten]
  · intro hp
    simp [hwiServeHTTP, hp]

/-- C2 (witness): both branches of the amended statement, on a handler that
panics before writing (recovered into a 500) and on a handler that panics
after writing (a double-write violation propagates). -/
theorem faultRecoveryAtBoundaryWitness :
    (hwiServeHTTP [] ⟨[], []⟩ ⟨fun w => ⟨[], w, some "boom"⟩⟩ =
        ⟨(pipelineBody [] [] [] ⟨fun w => ⟨[], w, some "boom"⟩⟩).trace,
          (pipelineBody [] [] [] ⟨fun w => ⟨[], w, some "boom"⟩⟩).events ++
            [Event.httpError 500], true, none⟩) ∧
      (hwiServeHTTP [] ⟨[], []⟩
          ⟨fun _ => ⟨[Event.writeHeader 204], true, some "boom"⟩⟩ =
        ⟨(pipelineBody [] [] []
              ⟨fun _ => ⟨[Event.writeHeader 204], true, some "boom"⟩⟩).trace,
          (pipelineBody [] [] []
              ⟨fun _ => ⟨[Event.writeHeader 204], true, some "boom"⟩⟩).events,
          true, some doubleWriteMsg⟩) :=
  ⟨(faultRecoveryAtBoundary [] [] [] ⟨fun w => ⟨[], w, some "boom"⟩⟩).1
      (by decide) (by decide),
    (faultRecoveryAtBoundary [] [] []
          ⟨fun _ => ⟨[Event.writeHeader 204], true, some "boom"⟩⟩).2.1
      (by decide) (by decide)⟩

/-- C3: Before-phase interceptors run in registration order, the trace
being the order snapshot cut at the first interceptor that halts the loop
(by writing or panicking); the remaining Before interceptors are skipped,
and the handler runs exactly when no Before interceptor halted. -/
theorem beforeRegistrationOrderShortCircuit (ics : List (String × Interceptor))
    (cfgs : List (String × Config)) (order : List String) (h : Handler)
    (wf : ∀ k ∈ order, (lookupKey k ics).isSome) :
    (pipelineBody ics cfgs order h).trace =
      (cutAt (fun k => beforeStops ics cfgs k) (fun k => beforeStops ics cfgs k)
            order).map TraceItem.before ++
        (if order.all (fun k => ! beforeStops ics cfgs k) then
          [TraceItem.handlerRun]
        else []) := by
  have hb := runPhase_trace Interceptor.before TraceItem.before ics cfgs order
    false wf
  by_cases hall :
    ∀ k ∈ order, stopsAt Interceptor.before ics cfgs k false = false
  · obtain ⟨hpn, hwn⟩ :=
      (runPhase_clean Interceptor.before TraceItem.before ics cfgs order).mpr hall
    have halltrue : order.all (fun k => ! beforeStops ics cfgs k) = true := by
      rw [List.all_eq_true]
      intro k hk
      simp [beforeStops, hall k hk]
    cases hsp : (h.serveHTTP false).panicMsg with
    | some msg =>
      simp [pipelineBody, beforePhase, hpn, hwn, hsp, hb, beforeStops]
      rw [if_pos hall]
    | none =>
      cases hsw : (h.serveHTTP false).written with
      | true =>
        simp [pipelineBody, beforePhase, hpn, hwn, hsp, hsw, hb, beforeStops]
        rw [if_pos hall]
      | false =>
        simp [pipelineBody, beforePhase, hpn, hwn, hsp, hsw, hb,
          beforeStops, ResponseWriter.noContent, markWritten]
        rw [if_pos hall]
  · have hex : ∃ x ∈ order,
        stopsAt Interceptor.before ics cfgs x false = true := by
      by_contra hno
      push_neg at hno
      refine hall fun k hk => ?_
      have hnk := hno k hk
      cases hbv : stopsAt Interceptor.before ics cfgs k false
      · rfl
      · exact absurd hbv hnk
    have hnc : ¬ ((runPhase Interceptor.before TraceItem.before ics cfgs order
          false).panicMsg = none ∧
        (runPhase Interceptor.before TraceItem.before ics cfgs order
          false).written = false) := by
      rw [runPhase_clean]
      exact hall
    cases hpn : (runPhase Interceptor.before TraceItem.before ics cfgs order
        false).panicMsg with
    | some msg =>
      simp [pipelineBody, beforePhase, hpn, hb, beforeStops]
      exact hex
    | none =>
      have hwn : (runPhase Interceptor.before TraceItem.before ics cfgs order
          false).written = true := by
        cases hwx : (runPhase Interceptor.before TraceItem.before ics cfgs order
            false).written
        · exact absurd ⟨hpn, hwx⟩ hnc
        · rfl
      simp [pipelineBody, beforePhase, hpn, hwn, hb, beforeStops]
      exact hex

/-- C3 (witness): interceptors installed in order a, b, c where b writes a
204 in its Before: the trace cuts at b and the handler never runs. -/
theorem beforeRegistrationOrderShortCircuitWitness :
    (pipelineBody
        [("a", ⟨fun _ w => ⟨[], w, none⟩, fun _ w => ⟨[], w, none⟩⟩),
          ("b", ⟨fun _ _ => ⟨[Event.writeHeader 204], true, none⟩,
            fun _ w => ⟨[], w, none⟩⟩),
          ("c", ⟨fun _ w => ⟨[], w, none⟩, fun _ w => ⟨[], w, none⟩⟩)]
        [] ["a", "b", "c"] ⟨fun w => ⟨[], w, none⟩⟩).trace =
      (cutAt
          (fun k =>
            beforeStops
              [("a", ⟨fun _ w => ⟨[], w, none⟩, fun _ w => ⟨[], w, none⟩⟩),
                ("b", ⟨fun _ _ => ⟨[Event.writeHeader 204], true, none⟩,
                  fun _ w => ⟨[], w, none⟩⟩),
                ("c", ⟨fun _ w => ⟨[], w, none⟩, fun _ w => ⟨[], w, none⟩⟩)]
              [] k)
          (fun k =>
            beforeStops
              [("a", ⟨fun _ w => ⟨[], w, none⟩, fun _ w => ⟨[], w, none⟩⟩),
                ("b", ⟨fun _ _ => ⟨[Event.writeHeader 204], true, none⟩,
                  fun _ w => ⟨[], w, none⟩⟩),
                ("c", ⟨fun _ w => ⟨[], w, none⟩, fun _ w => ⟨[], w, none⟩⟩)]
              [] k)
          ["a", "b", "c"]).map TraceItem.before ++
        (if
            List.all ["a", "b", "c"]
              (fun k =>
                ! beforeStops
                  [("a", ⟨fun _ w => ⟨[], w, none⟩, fun _ w => ⟨[], w, none⟩⟩),
                    ("b", ⟨fun _ _ => ⟨[Event.writeHeader 204], true, none⟩,
                      fun _ w => ⟨[], w, none⟩⟩),
                    ("c",
                      ⟨fun _ w => ⟨[], w, none⟩, fun _ w => ⟨[], w, none⟩⟩)]
                  [] k) then
          [TraceItem.handlerRun]
        else []) :=
  beforeRegistrationOrderShortCircuit
    [("a", ⟨fun _ w => ⟨[], w, none⟩, fun _ w => ⟨[], w, none⟩⟩),
      ("b", ⟨fun _ _ => ⟨[Event.writeHeader 204], true, none⟩,
        fun _ w => ⟨[], w, none⟩⟩),
      ("c", ⟨fun _ w => ⟨[], w, none⟩, fun _ w => ⟨[], w, none⟩⟩)]
    [] ["a", "b", "c"] ⟨fun w => ⟨[], w, none⟩⟩ (by decide)

/-- C4 (counterexample): one installed interceptor and two configs that
both match it: the binding `Handle` computes is the second (last) config,
not the first as the claim states. -/
theorem configBindingFirstMatchCex :
    (lookupKey "a"
          (buildCfgMap
            [("a", ⟨fun _ w => ⟨[], w, none⟩, fun _ w => ⟨[], w, none⟩⟩)]
            [⟨1, fun _ => true⟩, ⟨2, fun _ => true⟩])).map Config.id ≠
      (specFirstMatchingConfig
          ⟨fun _ w => ⟨[], w, none⟩, fun _ w => ⟨[], w, none⟩⟩
          [⟨1, fun _ => true⟩, ⟨2, fun _ => true⟩]).map Config.id := by
  decide

/-- C4 (amended): the config bound to an installed interceptor at
registration time is the last config, in the order the caller passed them,
whose `Match` predicate accepts that interceptor (not the first), and an
interceptor key outside the map gets no binding (so the zero/default
config is used at request time); the binding is computed once by `Handle`
via `buildCfgMap`. -/
theorem configBindingLastMatchWins (ics : List (String × Interceptor))
    (cfgs : List Config) (k : String) (hnd : (ics.map Prod.fst).Nodup) :
    (lookupKey k ics = none → lookupKey k (buildCfgMap ics cfgs) = none) ∧
      ∀ it, lookupKey k ics = some it →
        lookupKey k (buildCfgMap ics cfgs) = lastMatchingConfig it cfgs := by
  have houter := buildCfgMap_outer_lookup ics cfgs [] k hnd
  constructor
  · intro hnone
    rw [hnone] at houter
    simpa [buildCfgMap, lookupKey] using houter
  · intro it hit
    rw [hit] at houter
    simpa [buildCfgMap, lastMatchingConfig, lookupKey] using houter

/-- C4 (witness): the amended statement on one interceptor and two
matching configs. -/
theorem configBindingLastMatchWinsWitness :
    lookupKey "a"
        (buildCfgMap
          [("a", ⟨fun _ w => ⟨[], w, none⟩, fun _ w => ⟨[], w, none⟩⟩)]
          [⟨1, fun _ => true⟩, ⟨2, fun _ => true⟩]) =
      lastMatchingConfig ⟨fun _ w => ⟨[], w, none⟩, fun _ w => ⟨[], w, none⟩⟩
        [⟨1, fun _ => true⟩, ⟨2, fun _ => true⟩] :=
  (configBindingLastMatchWins
      [("a", ⟨fun _ w => ⟨[], w, none⟩, fun _ w => ⟨[], w, none⟩⟩)]
      [⟨1, fun _ => true⟩, ⟨2, fun _ => true⟩] "a" (by decide)).2 _ rfl

/-- C5: when the Commit phase runs, it traverses the interceptors in
exactly the reverse of registration order (a prefix of the reversed order
snapshot), stopping immediately after the first Commit invocation that
leaves the writer written (or panics). -/
theorem commitReverseOrderShortCircuit (c : CommitPhase) (w : Bool)
    (wf : ∀ k ∈ c.IntercepsOrder, (lookupKey k c.Interceps).isSome) :
    (c.commit w).trace =
      (cutAt (fun k => commitStops c.Interceps c.Configs k w)
          (fun k => commitStops c.Interceps c.Configs k false)
          c.IntercepsOrder.reverse).map TraceItem.commit ∧
      ∃ t,
        cutAt (fun k => commitStops c.Interceps c.Configs k w)
            (fun k => commitStops c.Interceps c.Configs k false)
            c.IntercepsOrder.reverse ++ t =
          c.IntercepsOrder.reverse := by
  constructor
  · have wf' : ∀ k ∈ c.IntercepsOrder.reverse,
        (lookupKey k c.Interceps).isSome :=
      fun k hk => wf k (List.mem_reverse.mp hk)
    have hc := runPhase_trace Interceptor.commit TraceItem.commit c.Interceps
      c.Configs c.IntercepsOrder.reverse w wf'
    simpa [CommitPhase.commit, commitStops] using hc
  · exact cutAt_prefix _ _ _

/-- C5 (witness): three no-op-commit interceptors entered with the writer
already written (the normal post-handler situation): only the
last-registered interceptor's Commit runs. -/
theorem commitReverseOrderShortCircuitWitness :
    ((CommitPhase.mk []
          [("a", ⟨fun _ w => ⟨[], w, none⟩, fun _ w => ⟨[], w, none⟩⟩),
            ("b", ⟨fun _ w => ⟨[], w, none⟩, fun _ w => ⟨[], w, none⟩⟩),
            ("c", ⟨fun _ w => ⟨[], w, none⟩, fun _ w => ⟨[], w, none⟩⟩)]
          ["a", "b", "c"]).commit true).trace =
      (cutAt
          (fun k =>
            commitStops
              [("a", ⟨fun _ w => ⟨[], w, none⟩, fun _ w => ⟨[], w, none⟩⟩),
                ("b", ⟨fun _ w => ⟨[], w, none⟩, fun _ w => ⟨[], w, none⟩⟩),
                ("c", ⟨fun _ w => ⟨[], w, none⟩, fun _ w => ⟨[], w, none⟩⟩)]
              [] k true)
          (fun k =>
            commitStops
              [("a", ⟨fun _ w => ⟨[], w, none⟩, fun _ w => ⟨[], w, none⟩⟩),
                ("b", ⟨fun _ w => ⟨[], w, none⟩, fun _ w => ⟨[], w, none⟩⟩),
                ("c", ⟨fun _ w => ⟨[], w, none⟩, fun _ w => ⟨[], w, none⟩⟩)]
              [] k false)
          (List.reverse ["a", "b", "c"])).map TraceItem.commit ∧
      ∃ t,
        cutAt
            (fun k =>
              commitStops
                [("a", ⟨fun _ w => ⟨[], w, none⟩, fun _ w => ⟨[], w, none⟩⟩),
                  ("b", ⟨fun _ w => ⟨[], w, none⟩, fun _ w => ⟨[], w, none⟩⟩),
                  ("c", ⟨fun _ w => ⟨[], w, none⟩, fun _ w => ⟨[], w, none⟩⟩)]
                [] k true)
            (fun k =>
              commitStops
                [("a", ⟨fun _ w => ⟨[], w, none⟩, fun _ w => ⟨[], w, none⟩⟩),
                  ("b", ⟨fun _ w => ⟨[], w, none⟩, fun _ w => ⟨[], w, none⟩⟩),
                  ("c", ⟨fun _ w => ⟨[], w, none⟩, fun _ w => ⟨[], w, none⟩⟩)]
                [] k false)
            (List.reverse ["a", "b", "c"]) ++ t =
          List.reverse ["a", "b", "c"] :=
  commitReverseOrderShortCircuit
    (CommitPhase.mk []
      [("a", ⟨fun _ w => ⟨[], w, none⟩, fun _ w => ⟨[], w, none⟩⟩),
        ("b", ⟨fun _ w => ⟨[], w, none⟩, fun _ w => ⟨[], w, none⟩⟩),
        ("c", ⟨fun _ w => ⟨[], w, none⟩, fun _ w => ⟨[], w, none⟩⟩)]
      ["a", "b", "c"]) true (by decide)

/-- C6: a handler that returns with the writer still unwritten (and no
panic anywhere) makes the engine write the implicit empty-bodied 204 on
its behalf, and any pipeline that completes without a propagating panic
ends with the writer written. -/
theorem handlerSilenceImplicitNoContent (ics : List (String × Interceptor))
    (cfgs : List (String × Config)) (order : List String) (h : Handler)
    (hb1 : (beforePhase ics cfgs order false).panicMsg = none)
    (hb2 : (beforePhase ics cfgs order false).written = false)
    (hh1 : (h.serveHTTP false).panicMsg = none)
    (hh2 : (h.serveHTTP false).written = false) :
    pipelineBody ics cfgs order h =
      ⟨(beforePhase ics cfgs order false).trace ++ [TraceItem.handlerRun],
        (beforePhase ics cfgs order false).events ++
          ((h.serveHTTP false).events ++ [Event.writeHeader 204]),
        true, none⟩ ∧
      ((hwiServeHTTP ics ⟨cfgs, order⟩ h).panicMsg = none →
        (hwiServeHTTP ics ⟨cfgs, order⟩ h).written = true) := by
  constructor
  · simp [pipelineBody, hb1, hb2, hh1, hh2, ResponseWriter.noContent,
      markWritten]
  · exact hwiServeHTTP_none_written ics ⟨cfgs, order⟩ h

/-- C6 (witness): the statement on the empty pipeline and a handler that
does nothing at all. -/
theorem handlerSilenceImplicitNoContentWitness :
    pipelineBody [] [] [] ⟨fun w => ⟨[], w, none⟩⟩ =
      ⟨(beforePhase [] [] [] false).trace ++ [TraceItem.handlerRun],
        (beforePhase [] [] [] false).events ++
          (((⟨fun w => ⟨[], w, none⟩⟩ : Handler).serveHTTP false).events ++
            [Event.writeHeader 204]),
        true, none⟩ ∧
      ((hwiServeHTTP [] ⟨[], []⟩ ⟨fun w => ⟨[], w, none⟩⟩).panicMsg = none →
        (hwiServeHTTP [] ⟨[], []⟩ ⟨fun w => ⟨[], w, none⟩⟩).written = true) :=
  handlerSilenceImplicitNoContent [] [] [] ⟨fun w => ⟨[], w, none⟩⟩
    (by decide) (by decide) (by decide) (by decide)

/-- C7: the host allow-list check precedes the method check: a host absent
from the allowed domains is answered 404 "Not Found" without reaching the
method lookup or any pipeline (regardless of the method), and an allowed
host whose matched pattern has no handler for the request method is
answered 405 "Method Not Allowed". -/
theorem hostCheckPrecedesMethodCheck {α : Type} (mh : MethodHandler α)
    (host method : String) :
    (mh.domains.contains host = false →
        methodHandlerServeHTTP mh host method =
          MHOutcome.errorResponse 404 "Not Found") ∧
      (mh.domains.contains host = true →
        lookupKey method mh.handlers = none →
        methodHandlerServeHTTP mh host method =
          MHOutcome.errorResponse 405 "Method Not Allowed") := by
  constructor
  · intro hd
    unfold methodHandlerServeHTTP
    rw [if_pos (by simpa using hd)]
  · intro hd hm
    unfold methodHandlerServeHTTP
    rw [if_neg (by simpa using hd), hm]

/-- C7 (witness): a mux serving example.com with only a GET handler:
a request from an unknown host gets 404 even for the registered method,
and a POST from the allowed host gets 405. -/
theorem hostCheckPrecedesMethodCheckWitness :
    (methodHandlerServeHTTP
        (⟨[("GET", 1)], ["example.com"]⟩ : MethodHandler Nat) "evil.com"
        "GET" = MHOutcome.errorResponse 404 "Not Found") ∧
      (methodHandlerServeHTTP
          (⟨[("GET", 1)], ["example.com"]⟩ : MethodHandler Nat) "example.com"
          "POST" = MHOutcome.errorResponse 405 "Method Not Allowed") :=
  ⟨(hostCheckPrecedesMethodCheck
        (⟨[("GET", 1)], ["example.com"]⟩ : MethodHandler Nat) "evil.com"
        "GET").1 (by decide),
    (hostCheckPrecedesMethodCheck
        (⟨[("GET", 1)], ["example.com"]⟩ : MethodHandler Nat) "example.com"
        "POST").2 (by decide) (by decide)⟩

/-- C9: the interceptors that run for a handler are fixed by the `Handle`
call: installing further interceptors afterwards (with necessarily fresh
keys) leaves the handler's request-time behaviour unchanged, and a
later-installed interceptor's Before never appears in that handler's
trace.  (The request-time engine only reads the registration-time
snapshot; it mutates nothing.) -/
theorem pipelineFrozenAtRegistration (m : ServeMux)
    (news : List (String × Interceptor)) (m' : ServeMux) (cfgs : List Config)
    (h : Handler) (hwf : WFMux m) (hins : InstallAll m news = Except.ok m') :
    hwiServeHTTP m'.interceps (Handle m cfgs) h =
        hwiServeHTTP m.interceps (Handle m cfgs) h ∧
      ∀ p ∈ news,
        TraceItem.before p.1 ∉
          (hwiServeHTTP m'.interceps (Handle m cfgs) h).trace := by
  obtain ⟨hmap, hord, hfresh⟩ := installAll_ok m news m' hins
  have hagree : ∀ k ∈ m.intercepsOrder,
      lookupKey k m'.interceps = lookupKey k m.interceps := by
    intro k hk
    rw [hmap]
    exact lookupKey_append_of_isSome k m.interceps news (hwf k hk)
  have hpb : pipelineBody m'.interceps (Handle m cfgs).configs
      (Handle m cfgs).intercepsOrder h =
      pipelineBody m.interceps (Handle m cfgs).configs
        (Handle m cfgs).intercepsOrder h :=
    pipelineBody_congr m.interceps m'.interceps (Handle m cfgs).configs
      (Handle m cfgs).intercepsOrder h (by simpa [Handle] using hagree)
  have hmain : hwiServeHTTP m'.interceps (Handle m cfgs) h =
      hwiServeHTTP m.interceps (Handle m cfgs) h := by
    unfold hwiServeHTTP
    rw [hpb]
  refine ⟨hmain, ?_⟩
  intro p hp hmem
  rw [hmain, hwiServeHTTP_trace] at hmem
  rcases pipelineBody_trace_items m.interceps (Handle m cfgs).configs
      (Handle m cfgs).intercepsOrder h _ hmem with habs | ⟨k, hk, hkeq⟩
  · exact TraceItem.noConfusion habs
  · have hk1 : p.1 = k := by simpa using hkeq
    have h1 := hwf k (by simpa [Handle] using hk)
    have h2 := hfresh p hp
    rw [hk1] at h2
    rw [h2] at h1
    simp at h1

/-- C9 (witness): a mux with interceptor a, a `Handle` snapshot, then an
`Install` of interceptor b: request-time behaviour is unchanged and b
never appears in the trace. -/
theorem pipelineFrozenAtRegistrationWitness :
    (hwiServeHTTP
        (ServeMux.mk
            [("a", ⟨fun _ w => ⟨[], w, none⟩, fun _ w => ⟨[], w, none⟩⟩),
              ("b", ⟨fun _ w => ⟨[], w, none⟩, fun _ w => ⟨[], w, none⟩⟩)]
            ["a", "b"]).interceps
        (Handle
          (ServeMux.mk
            [("a", ⟨fun _ w => ⟨[], w, none⟩, fun _ w => ⟨[], w, none⟩⟩)]
            ["a"])
          [])
        ⟨fun w => ⟨[], w, none⟩⟩ =
      hwiServeHTTP
        (ServeMux.mk
            [("a", ⟨fun _ w => ⟨[], w, none⟩, fun _ w => ⟨[], w, none⟩⟩)]
            ["a"]).interceps
        (Handle
          (ServeMux.mk
            [("a", ⟨fun _ w => ⟨[], w, none⟩, fun _ w => ⟨[], w, none⟩⟩)]
            ["a"])
          [])
        ⟨fun w => ⟨[], w, none⟩⟩) ∧
      TraceItem.before "b" ∉
        (hwiServeHTTP
            (ServeMux.mk
                [("a", ⟨fun _ w => ⟨[], w, none⟩, fun _ w => ⟨[], w, none⟩⟩),
                  ("b", ⟨fun _ w => ⟨[], w, none⟩, fun _ w => ⟨[], w, none⟩⟩)]
                ["a", "b"]).interceps
            (Handle
              (ServeMux.mk
                [("a", ⟨fun _ w => ⟨[], w, none⟩, fun _ w => ⟨[], w, none⟩⟩)]
                ["a"])
              [])
            ⟨fun w => ⟨[], w, none⟩⟩).trace :=
  ⟨(pipelineFrozenAtRegistration
        (ServeMux.mk
          [("a", ⟨fun _ w => ⟨[], w, none⟩, fun _ w => ⟨[], w, none⟩⟩)] ["a"])
        [("b", ⟨fun _ w => ⟨[], w, none⟩, fun _ w => ⟨[], w, none⟩⟩)]
        (ServeMux.mk
          [("a", ⟨fun _ w => ⟨[], w, none⟩, fun _ w => ⟨[], w, none⟩⟩),
            ("b", ⟨fun _ w => ⟨[], w, none⟩, fun _ w => ⟨[], w, none⟩⟩)]
          ["a", "b"])
        [] ⟨fun w => ⟨[], w, none⟩⟩
        (fun k hk => by simp only [List.mem_singleton] at hk; subst hk; rfl)
        rfl).1,
    (pipelineFrozenAtRegistration
        (ServeMux.mk
          [("a", ⟨fun _ w => ⟨[], w, none⟩, fun _ w => ⟨[], w, none⟩⟩)] ["a"])
        [("b", ⟨fun _ w => ⟨[], w, none⟩, fun _ w => ⟨[], w, none⟩⟩)]
        (ServeMux.mk
          [("a", ⟨fun _ w => ⟨[], w, none⟩, fun _ w => ⟨[], w, none⟩⟩),
            ("b", ⟨fun _ w => ⟨[], w, none⟩, fun _ w => ⟨[], w, none⟩⟩)]
          ["a", "b"])
        [] ⟨fun w => ⟨[], w, none⟩⟩
        (fun k hk => by simp only [List.mem_singleton] at hk; subst hk; rfl)
        rfl).2
      ("b", ⟨fun _ w => ⟨[], w, none⟩, fun _ w => ⟨[], w, none⟩⟩)
      (List.mem_singleton.mpr rfl)⟩

end SafeWeb
